import Mathlib

/-!
Verification development for the Internet-Mood-Radar core pipeline.

The TypeScript core (src/lib/mood.ts, src/lib/language.ts, src/lib/clustering.ts,
src/lib/utils.ts, src/lib/utils/url.ts, the config constants, and the snapshot
delta code) is shallowly embedded here.  JavaScript numbers are modelled as
exact rationals (ℚ); the transcendental / platform primitives that the code
calls (Math.exp, Math.log10, Math.log, Math.sqrt, and the sha256-based
generateId) are not rational-valued, so they are modelled as parameters
collected in a `Platform` record: every embedded definition that the source
writes with one of those primitives takes the record and uses the
corresponding field exactly where the source calls the primitive.  The
reading of the wall clock (`Date.now()` inside `recencyWeight`) is made an
explicit `now : ℚ` argument (milliseconds since epoch).
-/

/- The Batteries rational-number operations are `@[irreducible]`, which
blocks `decide` on concrete rational facts; restore the default
transparency for this file so concrete evaluations reduce. -/
attribute [local semireducible] Rat.add Rat.mul Rat.sub Rat.inv Rat.ofScientific

/-- JS platform primitives used by the core, modelled as parameters:
`exp`/`log10`/`ln`/`sqrt` stand for `Math.exp`/`Math.log10`/`Math.log`/
`Math.sqrt`, and `hash` stands for `generateId` (a sha256-prefix tag). -/
structure Platform where
  exp : ℚ → ℚ
  log10 : ℚ → ℚ
  ln : ℚ → ℚ
  sqrt : ℚ → ℚ
  hash : String → String

/-- A concrete `Platform` instance used to evaluate theorems on closed
inputs (all transcendental fields constant, `hash` the identity). -/
def trivialPlatform : Platform :=
  { exp := fun _ => 1, log10 := fun _ => 1, ln := fun _ => 1,
    sqrt := fun x => x, hash := fun s => s }

/-- `Math.round` (JS rounds half away from zero for positive arguments;
all arguments in this code are ≥ 0, where it is floor of x + 1/2). -/
def jsRound (x : ℚ) : ℤ := (x + 1/2).floor

/-- JS `String.prototype.toLowerCase`, modelled per character
(all strings the pipeline lowercases are ASCII or caseless scripts). -/
def lowerStr (s : String) : List Char := s.toList.map Char.toLower

/-- Does `needle` occur at the very start of `hay`? (helper for `includes`). -/
def matchesAt : List Char → List Char → Bool
  | _, [] => true
  | [], _ :: _ => false
  | h :: hs, n :: ns => h == n && matchesAt hs ns

/-- JS `String.prototype.includes`: `needle` occurs contiguously in `hay`. -/
def containsSub : List Char → List Char → Bool
  | [], needle => needle.isEmpty
  | c :: t, needle => matchesAt (c :: t) needle || containsSub t needle

/-- Truthiness of an optional string field in JS (`undefined`/`''` falsy). -/
def optTruthy : Option String → Bool
  | none => false
  | some s => s != ""

/-! ## Data model (src/types, as consumed by the core) -/

/-- `NormalizedItem`: one ingested content item.  `createdAt` is a
millisecond timestamp, `engagement` a raw engagement count. -/
structure NormalizedItem where
  id : String
  title : String
  text : Option String
  url : String
  source : String
  language : String
  engagement : ℚ
  createdAt : ℚ
  relevanceScore : Option ℚ
  duplicateOf : Option String
  location : Option String
  faviconUrl : Option String
  imageUrl : Option String
  eventType : Option String
  eventDate : Option String
  venue : Option String
  moodScore : Option ℚ
deriving DecidableEq, Repr

/-- Default item for building concrete test inputs. -/
def baseItem : NormalizedItem :=
  { id := "", title := "", text := none, url := "", source := "search",
    language := "en", engagement := 0, createdAt := 0, relevanceScore := none,
    duplicateOf := none, location := none, faviconUrl := none, imageUrl := none,
    eventType := none, eventDate := none, venue := none, moodScore := none }

/-- `EmotionDistribution`: fixed map from the 8 emotion categories to weights. -/
@[ext]
structure EmotionDistribution where
  anger : ℚ
  anxiety : ℚ
  sadness : ℚ
  resilience : ℚ
  hope : ℚ
  excitement : ℚ
  cynicism : ℚ
  neutral : ℚ
deriving DecidableEq, Repr

/-- Sum of all 8 values of a distribution (`Object.values(dist).reduce`). -/
def sumDist (d : EmotionDistribution) : ℚ :=
  d.anger + d.anxiety + d.sadness + d.resilience + d.hope + d.excitement +
    d.cynicism + d.neutral

/-- `createEmptyDistribution` from mood.ts. -/
def createEmptyDistribution : EmotionDistribution :=
  { anger := 0, anxiety := 0, sadness := 0, resilience := 0, hope := 0,
    excitement := 0, cynicism := 0, neutral := 0 }

/-- The all-neutral distribution (`neutral = 1`, everything else 0). -/
def neutralDistribution : EmotionDistribution :=
  { createEmptyDistribution with neutral := 1 }

/-! ## Emotion keyword configuration (EMOTION_KEYWORDS in the config file) -/

/-- EMOTION_KEYWORDS.anger. -/
def angerKeywords : List String :=
  ["angry", "furious", "outrage", "rage", "hate", "disgusting", "unacceptable",
   "infuriating", "livid", "enraged", "hostile", "bitter", "protest", "riot",
   "condemn", "denounce", "fury", "wrath", "outraged"]

/-- EMOTION_KEYWORDS.anxiety. -/
def anxietyKeywords : List String :=
  ["worried", "anxious", "fear", "scared", "threat", "danger", "warning", "alert",
   "crisis", "emergency", "concern", "uncertain", "risk", "tension", "volatile",
   "unstable", "alarming", "concerning", "troubling", "nervous"]

/-- EMOTION_KEYWORDS.sadness. -/
def sadnessKeywords : List String :=
  ["sad", "tragic", "death", "killed", "victim", "mourn", "grief", "loss", "devastated",
   "heartbreaking", "mourning", "sorrow", "painful", "funeral", "tragedy",
   "disaster", "casualties", "suffering"]

/-- EMOTION_KEYWORDS.resilience. -/
def resilienceKeywords : List String :=
  ["strong", "resilient", "united", "together", "fight", "defend", "brave", "hero",
   "courage", "solidarity", "endure", "persevere", "overcome", "survive",
   "determined", "steadfast", "unwavering"]

/-- EMOTION_KEYWORDS.hope. -/
def hopeKeywords : List String :=
  ["hope", "peace", "progress", "improve", "better", "optimistic", "breakthrough",
   "promising", "recovery", "rebuild", "healing", "resolution", "agreement",
   "deal", "success", "positive", "growth"]

/-- EMOTION_KEYWORDS.excitement. -/
def excitementKeywords : List String :=
  ["exciting", "amazing", "great", "success", "win", "celebrate", "achievement",
   "victory", "triumph", "historic", "milestone", "breakthrough", "incredible",
   "remarkable", "stunning", "impressive"]

/-- EMOTION_KEYWORDS.cynicism. -/
def cynicismKeywords : List String :=
  ["lol", "lmao", "yeah right", "sure", "typical", "surprise", "expected", "joke",
   "as usual", "nothing new", "of course", "predictable", "unsurprising",
   "ironic", "sarcastic"]

/-! ## Emotion scoring (mood.ts) -/

/-- The lowercased search text `\x60${item.title} ${item.text || ''}\x60.toLowerCase()`. -/
def searchText (i : NormalizedItem) : List Char :=
  lowerStr (i.title ++ " " ++ i.text.getD "")

/-- Number of keywords of one category found in a lowercased text
(each keyword contributes 1 when `text.includes(keyword.toLowerCase())`). -/
def countKeywordMatches (text : List Char) (ks : List String) : ℕ :=
  (ks.filter (fun k => containsSub text (lowerStr k))).length

/-- The raw per-category match counts computed by the loop in
`scoreItemEmotions` (neutral stays 0 there). -/
def rawEmotionCounts (i : NormalizedItem) : EmotionDistribution :=
  { anger := countKeywordMatches (searchText i) angerKeywords,
    anxiety := countKeywordMatches (searchText i) anxietyKeywords,
    sadness := countKeywordMatches (searchText i) sadnessKeywords,
    resilience := countKeywordMatches (searchText i) resilienceKeywords,
    hope := countKeywordMatches (searchText i) hopeKeywords,
    excitement := countKeywordMatches (searchText i) excitementKeywords,
    cynicism := countKeywordMatches (searchText i) cynicismKeywords,
    neutral := 0 }

/-- `totalMatches` accumulated by the same loop. -/
def totalMatches (i : NormalizedItem) : ℕ :=
  countKeywordMatches (searchText i) angerKeywords +
  countKeywordMatches (searchText i) anxietyKeywords +
  countKeywordMatches (searchText i) sadnessKeywords +
  countKeywordMatches (searchText i) resilienceKeywords +
  countKeywordMatches (searchText i) hopeKeywords +
  countKeywordMatches (searchText i) excitementKeywords +
  countKeywordMatches (searchText i) cynicismKeywords

/-- `normalizeDistribution` from mood.ts: divide by the sum, and return the
neutral distribution when the sum is 0. -/
def normalizeDistribution (dist : EmotionDistribution) : EmotionDistribution :=
  if sumDist dist = 0 then
    { createEmptyDistribution with neutral := 1 }
  else
    { anger := dist.anger / sumDist dist,
      anxiety := dist.anxiety / sumDist dist,
      sadness := dist.sadness / sumDist dist,
      resilience := dist.resilience / sumDist dist,
      hope := dist.hope / sumDist dist,
      excitement := dist.excitement / sumDist dist,
      cynicism := dist.cynicism / sumDist dist,
      neutral := dist.neutral / sumDist dist }

/-- `scoreItemEmotions` from mood.ts. -/
def scoreItemEmotions (i : NormalizedItem) : EmotionDistribution :=
  let dist := rawEmotionCounts i
  if totalMatches i = 0 then
    normalizeDistribution { dist with neutral := 1 }
  else
    normalizeDistribution dist

/-! ## Weights and aggregation (utils.ts + mood.ts) -/

/-- `capEngagement` from utils.ts (cap defaults to 1000 at every call site). -/
def capEngagement (engagement cap : ℚ) : ℚ := min engagement cap

/-- `recencyWeight` from utils.ts; `now` is the `Date.now()` reading and
`halfLifeHours` defaults to 6 at every call site of the core. -/
def recencyWeight (P : Platform) (now createdAt halfLifeHours : ℚ) : ℚ :=
  let ageMs := now - createdAt
  let ageHours := ageMs / (1000 * 60 * 60)
  P.exp (-(693/1000) * ageHours / halfLifeHours)

/-- The per-item weight `recency * Math.log10(engagement + 2) * relevance`
computed inside `aggregateEmotions` (engagement already capped). -/
def itemWeight (P : Platform) (now : ℚ) (i : NormalizedItem) : ℚ :=
  recencyWeight P now i.createdAt 6 *
    P.log10 (capEngagement i.engagement 1000 + 2) *
    i.relevanceScore.getD (1/2)

/-- The items the aggregation loop does not `continue` past
(`if (item.duplicateOf) continue`). -/
def liveItems (items : List NormalizedItem) : List NormalizedItem :=
  items.filter (fun i => !optTruthy i.duplicateOf)

/-- `totalWeight` accumulated by the loop in `aggregateEmotions`. -/
def totalWeight (P : Platform) (now : ℚ) (items : List NormalizedItem) : ℚ :=
  ((liveItems items).map (itemWeight P now)).sum

/-- The `weighted` distribution accumulated by the loop in
`aggregateEmotions` (per category: Σ score·weight over live items). -/
def weightedSums (P : Platform) (now : ℚ) (items : List NormalizedItem) :
    EmotionDistribution :=
  { anger := ((liveItems items).map
      (fun i => (scoreItemEmotions i).anger * itemWeight P now i)).sum,
    anxiety := ((liveItems items).map
      (fun i => (scoreItemEmotions i).anxiety * itemWeight P now i)).sum,
    sadness := ((liveItems items).map
      (fun i => (scoreItemEmotions i).sadness * itemWeight P now i)).sum,
    resilience := ((liveItems items).map
      (fun i => (scoreItemEmotions i).resilience * itemWeight P now i)).sum,
    hope := ((liveItems items).map
      (fun i => (scoreItemEmotions i).hope * itemWeight P now i)).sum,
    excitement := ((liveItems items).map
      (fun i => (scoreItemEmotions i).excitement * itemWeight P now i)).sum,
    cynicism := ((liveItems items).map
      (fun i => (scoreItemEmotions i).cynicism * itemWeight P now i)).sum,
    neutral := ((liveItems items).map
      (fun i => (scoreItemEmotions i).neutral * itemWeight P now i)).sum }

/-- Pointwise division of a distribution by a scalar (the final
`weighted[emotion] /= totalWeight` loop). -/
def divDist (d : EmotionDistribution) (t : ℚ) : EmotionDistribution :=
  { anger := d.anger / t, anxiety := d.anxiety / t, sadness := d.sadness / t,
    resilience := d.resilience / t, hope := d.hope / t,
    excitement := d.excitement / t, cynicism := d.cynicism / t,
    neutral := d.neutral / t }

/-- `aggregateEmotions` from mood.ts. -/
def aggregateEmotions (P : Platform) (now : ℚ) (items : List NormalizedItem) :
    EmotionDistribution :=
  if items = [] then
    normalizeDistribution createEmptyDistribution
  else if totalWeight P now items = 0 then
    normalizeDistribution createEmptyDistribution
  else
    normalizeDistribution (divDist (weightedSums P now items) (totalWeight P now items))

/-! ## Tension index (mood.ts + EMOTION_WEIGHTS in the config file) -/

/-- `EMOTION_WEIGHTS.negative` from the config file. -/
structure NegativeWeights where
  anger : ℚ
  anxiety : ℚ
  sadness : ℚ
  cynicism : ℚ

/-- `EMOTION_WEIGHTS.positive` from the config file. -/
structure PositiveWeights where
  resilience : ℚ
  hope : ℚ
  excitement : ℚ

/-- The `EMOTION_WEIGHTS` constant record. -/
structure EmotionWeights where
  negative : NegativeWeights
  positive : PositiveWeights
  positiveReductionFactor : ℚ

/-- `EMOTION_WEIGHTS` from the config file. -/
def EMOTION_WEIGHTS : EmotionWeights :=
  { negative := { anger := 1, anxiety := 1, sadness := 7/10, cynicism := 4/10 },
    positive := { resilience := 1/2, hope := 7/10, excitement := 3/10 },
    positiveReductionFactor := 1/2 }

/-- `calculateTensionIndex` from mood.ts. -/
def calculateTensionIndex (e : EmotionDistribution) : ℤ :=
  let negativeScore :=
    e.anger * EMOTION_WEIGHTS.negative.anger +
    e.anxiety * EMOTION_WEIGHTS.negative.anxiety +
    e.sadness * EMOTION_WEIGHTS.negative.sadness +
    e.cynicism * EMOTION_WEIGHTS.negative.cynicism
  let positiveScore :=
    e.resilience * EMOTION_WEIGHTS.positive.resilience +
    e.hope * EMOTION_WEIGHTS.positive.hope +
    e.excitement * EMOTION_WEIGHTS.positive.excitement
  let tension := max 0 (negativeScore - positiveScore * EMOTION_WEIGHTS.positiveReductionFactor)
  min 100 (jsRound (tension * 100))

/-! ## URL utilities (src/lib/utils/url.ts)

`normalizeUrl`/`extractDomain` use the WHATWG `new URL` parser.  That parser
is platform code; it is modelled here by a direct scan: a URL "parses" when
it contains `://`, its hostname is the segment before the first `/`, `?` or
`#`, and its pathname runs to the first `?` or `#`.  Userinfo/port splitting
and other exotica of the real parser are not modelled; no claim depends on
them. -/

/-- Split a character list at the first `://`, returning the parts before
and after it, or `none` when there is no scheme separator. -/
def splitScheme : List Char → Option (List Char × List Char)
  | [] => none
  | ':' :: '/' :: '/' :: rest => some ([], rest)
  | c :: rest =>
    match splitScheme rest with
    | none => none
    | some (pre, post) => some (c :: pre, post)

/-- Remove a leading `www.` (the `replace(/^www\./, '')` calls). -/
def dropLeadingWww (l : List Char) : List Char :=
  if matchesAt l ("www.".toList) then l.drop 4 else l

/-- Remove one trailing slash (the `replace(/\/$/, '')` calls). -/
def dropTrailingSlash (l : List Char) : List Char :=
  match l.reverse with
  | '/' :: rest => rest.reverse
  | _ => l

/-- `normalizeUrl` from utils/url.ts with its default options: drop the
protocol, `www.`, the query, the hash and a trailing slash, lowercased.
The catch-branch (parse failure) is the fallback string normalization. -/
def normalizeUrl (url : String) : String :=
  match splitScheme url.toList with
  | some (_, rest) =>
    let host := rest.takeWhile (fun c => !(c == '/' || c == '?' || c == '#'))
    let afterHost := rest.drop host.length
    let path := afterHost.takeWhile (fun c => !(c == '?' || c == '#'))
    String.mk ((dropLeadingWww host ++ dropTrailingSlash path).map Char.toLower)
  | none =>
    let l := url.toList.map Char.toLower
    let l := if matchesAt l ("http://".toList) then l.drop 7
             else if matchesAt l ("https://".toList) then l.drop 8 else l
    String.mk (dropTrailingSlash (dropLeadingWww l))

/-- `extractDomain` from utils/url.ts: hostname without `www.`, or `""`
when URL parsing fails. -/
def extractDomain (url : String) : String :=
  match splitScheme url.toList with
  | some (_, rest) =>
    let host := rest.takeWhile (fun c => !(c == '/' || c == '?' || c == '#'))
    String.mk (dropLeadingWww (host.map Char.toLower))
  | none => ""

/-! ## Tokenization and Jaccard similarity (language.ts) -/

/-- A letter for the purposes of the Unicode class `\p{L}` as used by this
pipeline: ASCII letters plus the Hebrew and Cyrillic blocks the app
processes (the full Unicode letter class is platform data). -/
def isTokenLetter (c : Char) : Bool :=
  c.isAlpha || (0x590 ≤ c.toNat && c.toNat ≤ 0x5FF) ||
    (0x400 ≤ c.toNat && c.toNat ≤ 0x4FF)

/-- Characters kept by `replace(/[^\p{L}\p{N}\s]/gu, '')`. -/
def tokenKeepChar (c : Char) : Bool :=
  isTokenLetter c || c.isDigit || c.isWhitespace

/-- Split on runs of whitespace, dropping empty fragments (the JS
`split(/\s+/)` may produce one leading `''`, which every caller filters
away by a length bound). -/
def splitWsAux : List Char → List Char → List (List Char)
  | [], acc => if acc.isEmpty then [] else [acc.reverse]
  | c :: cs, acc =>
    if c.isWhitespace then
      if acc.isEmpty then splitWsAux cs [] else acc.reverse :: splitWsAux cs []
    else splitWsAux cs (c :: acc)

/-- Split a character list into whitespace-separated words. -/
def splitWs (l : List Char) : List (List Char) := splitWsAux l []

/-- `tokenize` from language.ts: lowercase, strip non-letter/digit/space
characters, split on whitespace, keep words longer than 2 characters, as a
set. -/
def tokenize (s : String) : Finset String :=
  (((splitWs ((lowerStr s).filter tokenKeepChar)).filter
      (fun w => 2 < w.length)).map (fun w => String.mk w)).toFinset

/-- `jaccardSimilarity` from language.ts. -/
def jaccardSimilarity (a b : Finset String) : ℚ :=
  if a.card = 0 ∧ b.card = 0 then 0
  else ((a ∩ b).card : ℚ) / ((a ∪ b).card : ℚ)

/-! ## Entity extraction (language.ts)

The five `ENTITY_PATTERNS` regexes are modelled as character-level
scanners.  The `/g` scan is modelled as matching at every position of the
text (results land in a set, so this differs from the real engine only in
rare overlapping-match corners), and the word-boundary `\b` is modelled as
"the previous character is not a word character" at the start of a match
and "the next character is not a word character" after it; the quirky
interaction of a trailing `\b` with `%` is simplified by always keeping a
trailing `%`. -/

/-- JS word character (`\w` and the `\b` boundary class): `[A-Za-z0-9_]`. -/
def jsWordChar (c : Char) : Bool := c.isAlphanum || c == '_'

/-- A position has a start boundary when the preceding character (if any)
is not a word character. -/
def boundaryBefore : Option Char → Bool
  | none => true
  | some p => !jsWordChar p

/-- All positions of a text, each with the character preceding it. -/
def positions : Option Char → List Char → List (Option Char × List Char)
  | _, [] => []
  | prev, c :: rest => (prev, c :: rest) :: positions (some c) rest

/-- Try to match `\d+(?:\.\d+)?%?` at the current position. -/
def numToken (l : List Char) : Option (List Char) :=
  let ds := l.takeWhile Char.isDigit
  if ds.isEmpty then none
  else
    let r1 := l.drop ds.length
    let fr :=
      match r1 with
      | '.' :: t => let fs := t.takeWhile Char.isDigit
                    if fs.isEmpty then [] else '.' :: fs
      | _ => []
    let r2 := r1.drop fr.length
    match r2 with
    | '%' :: _ => some (ds ++ fr ++ ['%'])
    | _ => some (ds ++ fr)

/-- `ENTITY_PATTERNS.numbers`: all matches of the number pattern. -/
def scanNumbers (l : List Char) : List String :=
  (positions none l).filterMap (fun p =>
    if boundaryBefore p.1 then (numToken p.2).map String.mk else none)

/-- Try to match `[A-Z][a-z]{2,}` (with its closing boundary) at the
current position. -/
def capToken (tl : List Char) : Option (List Char) :=
  match tl with
  | c :: t =>
    if c.isUpper then
      let lows := t.takeWhile Char.isLower
      if 2 ≤ lows.length then
        match t.drop lows.length with
        | [] => some (c :: lows)
        | nxt :: _ => if jsWordChar nxt then none else some (c :: lows)
      else none
    else none
  | [] => none

/-- `ENTITY_PATTERNS.capitalizedWords`: capitalized words of length ≥ 3. -/
def scanCapitalized (l : List Char) : List String :=
  (positions none l).filterMap (fun p =>
    if boundaryBefore p.1 then (capToken p.2).map String.mk else none)

/-- `ENTITY_PATTERNS.quotedPhrases`: `"..."` with non-empty content; the
whole match (quotes included) is collected, as `String.match` returns. -/
def scanQuoted : List Char → List String
  | [] => []
  | '"' :: rest =>
    let content := rest.takeWhile (fun c => c != '"')
    match h : rest.drop content.length with
    | '"' :: tl =>
      if content.isEmpty then scanQuoted rest
      else String.mk ('"' :: content ++ ['"']) :: scanQuoted tl
    | _ => []
  | _ :: rest => scanQuoted rest
termination_by l => l.length
decreasing_by
· simp
· have h1 := congrArg List.length h
  simp [List.length_drop] at h1
  simp
  omega
· simp

/-- Try to match one case-insensitive literal keyword followed by
`\s+\w+` at the current position (for the titles/honorifics patterns);
the match is collected lowercased. -/
def tryPatternAt (kw tl : List Char) : Option String :=
  if (tl.take kw.length).map Char.toLower == kw then
    let rest := tl.drop kw.length
    let ws := rest.takeWhile Char.isWhitespace
    if ws.isEmpty then none
    else
      let word := (rest.drop ws.length).takeWhile jsWordChar
      if word.isEmpty then none
      else some (String.mk ((tl.take kw.length ++ ws ++ word).map Char.toLower))
  else none

/-- Scan a text for `(?:kw1|kw2|...)\s+\w+` case-insensitively. -/
def scanPattern (kws : List (List Char)) (l : List Char) : List String :=
  (positions none l).filterMap (fun p => kws.findSome? (fun kw => tryPatternAt kw p.2))

/-- `extractKeyEntities` from language.ts: numbers, capitalized words,
quoted phrases, and title/honorific + name patterns, as a set. -/
def extractKeyEntities (text : String) : Finset String :=
  (scanNumbers text.toList ++ scanCapitalized text.toList ++
    (scanQuoted text.toList).map (fun q => String.mk (lowerStr q)) ++
    scanPattern [("president".toList), ("pm".toList), ("minister".toList),
      ("ceo".toList), ("cfo".toList)] text.toList ++
    scanPattern [("mr.".toList), ("mrs.".toList), ("dr.".toList),
      ("prof.".toList)] text.toList).toFinset

/-! ## Phrases and same-story detection (language.ts) -/

/-- The stop-word list local to `extractPhrases`. -/
def phraseStopWords : List String :=
  ["the", "and", "for", "are", "but", "not", "you", "all", "can", "has",
   "have", "was", "were", "been", "being", "will", "would", "could", "should",
   "that", "this", "with", "from", "they", "which", "their", "there", "what",
   "about", "into", "more", "other", "than", "then", "these", "some"]

/-- Consecutive triples of a list (the `i, i+1, i+2` window). -/
def triples : List α → List (α × α × α)
  | a :: b :: c :: rest => (a, b, c) :: triples (b :: c :: rest)
  | _ => []

/-- `extractPhrases` from language.ts: 3-word windows over the cleaned
word list, skipping windows that start or end with a stop word, keeping
phrases longer than 10 characters. -/
def extractPhrases (text : String) : List String :=
  let words := ((splitWs ((lowerStr text).map
      (fun c => if tokenKeepChar c then c else ' '))).filter
      (fun w => 2 < w.length)).map (fun w => String.mk w)
  (triples words).filterMap (fun t =>
    if t.1 ∈ phraseStopWords ∨ t.2.2 ∈ phraseStopWords then none
    else
      let phrase := t.1 ++ " " ++ t.2.1 ++ " " ++ t.2.2
      if 10 < phrase.length then some phrase else none)

/-- `isSameStory` from language.ts: entity overlap or shared phrases. -/
def isSameStory (a b : NormalizedItem) : Bool :=
  let textA := a.title ++ " " ++ a.text.getD ""
  let textB := b.title ++ " " ++ b.text.getD ""
  let entitiesA := extractKeyEntities textA
  let entitiesB := extractKeyEntities textB
  if entitiesA.card < 2 ∨ entitiesB.card < 2 then false
  else
    let inter := entitiesA ∩ entitiesB
    let minSize := min entitiesA.card entitiesB.card
    let overlapRatio : ℚ := (inter.card : ℚ) / (minSize : ℚ)
    if 6/10 ≤ overlapRatio ∧ 3 ≤ inter.card then true
    else
      let phrasesA := extractPhrases textA
      let phrasesB := extractPhrases textB
      decide (2 ≤ (phrasesA.filter (fun p => p ∈ phrasesB)).length)

/-! ## Pairwise similarity and deduplication (language.ts) -/

/-- `calculateSimilarity` from language.ts. -/
def calculateSimilarity (a b : NormalizedItem) : ℚ :=
  if a.url != "" ∧ b.url != "" ∧ normalizeUrl a.url = normalizeUrl b.url then 1
  else
    let titleSimilarity := jaccardSimilarity (tokenize a.title) (tokenize b.title)
    let titleALower := lowerStr a.title
    let titleBLower := lowerStr b.title
    let hasSubstringMatch :=
      (decide (20 < titleALower.length) && containsSub titleBLower (titleALower.take 30)) ||
      (decide (20 < titleBLower.length) && containsSub titleALower (titleBLower.take 30))
    if hasSubstringMatch then max titleSimilarity (85/100)
    else if 1/2 < titleSimilarity ∧ extractDomain a.url ≠ "" ∧
        extractDomain b.url ≠ "" ∧ extractDomain a.url = extractDomain b.url then
      max titleSimilarity (8/10)
    else if 3/10 < titleSimilarity ∧ isSameStory a b then
      max titleSimilarity (75/100)
    else if 4/10 < titleSimilarity then
      let textSimilarity := jaccardSimilarity (tokenize (a.text.getD "")) (tokenize (b.text.getD ""))
      if 1/2 < textSimilarity then
        max (titleSimilarity * (4/10) + textSimilarity * (6/10)) (7/10)
      else titleSimilarity * (7/10) + textSimilarity * (3/10)
    else titleSimilarity

/-- Stable insertion: `x` goes after every element it sorts strictly
after (`lt x y` = "x sorts strictly after y"), before the first other. -/
def insertStable (lt : α → α → Bool) (x : α) : List α → List α
  | [] => [x]
  | y :: ys => if lt x y then y :: insertStable lt x ys else x :: y :: ys

/-- Stable sort (the semantics of `Array.prototype.sort`, which is
required to be stable). -/
def stableSort (lt : α → α → Bool) : List α → List α
  | [] => []
  | x :: xs => insertStable lt x (stableSort lt xs)

/-- `[...items].sort((a, b) => b.engagement - a.engagement)`: stable sort
by engagement descending. -/
def sortByEngagementDesc (items : List NormalizedItem) : List NormalizedItem :=
  stableSort (fun a b => decide (a.engagement < b.engagement)) items

/-- `item.url ? normalizeUrlUtil(item.url) : ''` inside the dedup loop. -/
def urlKey (i : NormalizedItem) : String :=
  if i.url != "" then normalizeUrl i.url else ""

/-- The inner scan of the dedup loop: is the candidate similar (at or
above the threshold) to some already-accepted item? -/
def similarToAccepted (θ : ℚ) (i : NormalizedItem) (unique : List NormalizedItem) : Bool :=
  unique.any (fun ex => decide (θ ≤ calculateSimilarity i ex))

/-- The non-empty normalized URLs of a list of items (the contents of the
`seenUrls` set after accepting exactly these items). -/
def urlList (l : List NormalizedItem) : List String :=
  (l.map urlKey).filter (fun s => s != "")

/-- The dedup loop of `deduplicateItems`: `unique` is the accepted list so
far, `seen` the set of normalized URLs of accepted items. -/
def dedupGo (θ : ℚ) : List NormalizedItem → List NormalizedItem → List String → List NormalizedItem
  | [], unique, _ => unique
  | i :: rest, unique, seen =>
    if urlKey i != "" ∧ urlKey i ∈ seen then dedupGo θ rest unique seen
    else if similarToAccepted θ i unique then dedupGo θ rest unique seen
    else dedupGo θ rest (unique ++ [i]) (seen ++ urlList [i])

/-- `deduplicateItems` from language.ts (threshold defaults to 0.5). -/
def deduplicateItems (θ : ℚ) (items : List NormalizedItem) : List NormalizedItem :=
  dedupGo θ (sortByEngagementDesc items) [] []

/-! ## Topics, receipts and snapshots (src/types) -/

/-- `Receipt`: the evidence projection of an item attached to a topic. -/
structure Receipt where
  id : String
  title : String
  snippet : String
  url : String
  source : String
  language : String
  engagement : ℚ
  createdAt : ℚ
  location : Option String
  faviconUrl : Option String
  imageUrl : Option String
  eventType : Option String
  eventDate : Option String
  venue : Option String
  moodScore : Option ℚ
deriving DecidableEq, Repr

/-- `Topic` as built by the clustering engine. -/
structure Topic where
  id : String
  title : String
  keywords : List String
  whyTrending : String
  emotionMix : EmotionDistribution
  weight : ℚ
  delta : ℚ
  receipts : List Receipt
deriving DecidableEq, Repr

/-- The abbreviated topic stored in a daily snapshot. -/
structure SnapshotTopic where
  keywords : List String
  receiptIds : List String
deriving DecidableEq, Repr

/-- `DailySnapshot` as consumed by the delta engine. -/
structure DailySnapshot where
  date : String
  tensionIndex : ℤ
  emotions : EmotionDistribution
  topTopics : List SnapshotTopic
  llmOutputs : List (String × String)
deriving DecidableEq, Repr

/-! ## Stop words and term extraction (clustering.ts) -/

/-- `ENGLISH_STOP_WORDS` from clustering.ts. -/
def ENGLISH_STOP_WORDS : List String :=
  ["the", "a", "an", "and", "or", "but", "in", "on", "at", "to", "for", "of",
   "with", "by", "from", "as", "is", "was", "are", "were", "been", "be",
   "have", "has", "had", "do", "does", "did", "will", "would", "could",
   "should", "may", "might", "must", "can", "this", "that", "these", "those",
   "it", "its", "he", "she", "they", "we", "you", "who", "what", "where",
   "when", "why", "how", "all", "each", "every", "both", "few", "more",
   "most", "other", "some", "such", "no", "not", "only", "same", "so",
   "than", "too", "very", "just", "also", "now", "new", "said", "says",
   "according", "report", "reports", "reported", "after", "before"]

/-- `HEBREW_STOP_WORDS` from clustering.ts. -/
def HEBREW_STOP_WORDS : List String :=
  ["של", "את", "על", "עם", "אל", "מן", "לא", "הוא", "היא", "הם", "הן",
   "אני", "אתה", "זה", "זו", "אלה", "כל", "גם", "רק", "כי",
   "אם", "או", "אבל", "עד", "כן", "לו", "לי", "לך", "להם", "בו",
   "ב", "ל", "מ", "ה", "ו", "כ", "ש"]

/-- Fold a Hebrew final letter to its base form. -/
def normalizeHebrewChar (c : Char) : Char :=
  if c = 'ך' then 'כ'
  else if c = 'ם' then 'מ'
  else if c = 'ן' then 'נ'
  else if c = 'ף' then 'פ'
  else if c = 'ץ' then 'צ'
  else c

/-- `normalizeHebrew` from clustering.ts: drop diacritics (U+0591–U+05C7)
and fold final letters.  (The NFD/NFC round trip is a no-op for the
strings involved: no precomposed Hebrew presentation forms occur.) -/
def normalizeHebrew (s : String) : String :=
  String.mk ((s.toList.filter
    (fun c => !(0x591 ≤ c.toNat && c.toNat ≤ 0x5C7))).map normalizeHebrewChar)

/-- The combined `STOP_WORDS` set. -/
def STOP_WORDS : List String :=
  ENGLISH_STOP_WORDS ++ HEBREW_STOP_WORDS.map normalizeHebrew

/-- Does the term contain a character of the Hebrew block? -/
def containsHebrewChar (s : String) : Bool :=
  s.toList.any (fun c => 0x590 ≤ c.toNat && c.toNat ≤ 0x5FF)

/-- `isStopWord` from clustering.ts. -/
def isStopWord (term : String) : Bool :=
  if STOP_WORDS.contains (String.mk (lowerStr term)) then true
  else if containsHebrewChar term then STOP_WORDS.contains (normalizeHebrew term)
  else false

/-- `extractTerms` from clustering.ts: lowercase, replace everything but
letters/digits/whitespace with a space, split, keep terms of length > 1
that are not stop words. -/
def extractTerms (text : String) : List String :=
  (((splitWs ((lowerStr text).map (fun c => if tokenKeepChar c then c else ' '))).map
    (fun w => String.mk w)).filter (fun t => 1 < t.length && !isStopWord t))

/-! ## TF-IDF vectors (clustering.ts)

Term-frequency tables are JS objects with string keys; they are modelled
as association lists in key-insertion order, which is the enumeration
order of `Object.keys`/`Object.entries` for such objects. -/

/-- Add `v` to the entry of `k`, appending a new entry when absent. -/
def assocAdd : List (String × ℚ) → String → ℚ → List (String × ℚ)
  | [], k, v => [(k, v)]
  | (k0, v0) :: rest, k, v =>
    if k0 = k then (k0, v0 + v) :: rest else (k0, v0) :: assocAdd rest k v

/-- Value of a key in a term-frequency table (`tf[term] || 0`). -/
def tfGet (tf : List (String × ℚ)) (t : String) : ℚ :=
  ((tf.find? (fun p => p.1 == t)).map Prod.snd).getD 0

/-- `calculateTF` from clustering.ts: term counts normalized by the
maximum count (`Math.max(..., 1)`). -/
def calculateTF (text : String) : List (String × ℚ) :=
  let tf := (extractTerms text).foldl (fun acc t => assocAdd acc t 1) []
  let maxFreq := max ((tf.map Prod.snd).foldr max 0) 1
  tf.map (fun p => (p.1, p.2 / maxFreq))

/-- Number of documents whose table contains a term (for IDF). -/
def termDocCount (documents : List (List (String × ℚ))) (t : String) : ℕ :=
  (documents.filter (fun doc => doc.any (fun p => p.1 == t))).length

/-- The IDF value of a term: `Math.log(docCount / (termDocCount + 1)) + 1`
(`calculateIDF` in clustering.ts). -/
def idfValue (P : Platform) (documents : List (List (String × ℚ))) (t : String) : ℚ :=
  P.ln ((documents.length : ℚ) / ((termDocCount documents t : ℚ) + 1)) + 1

/-- A TF-IDF document vector over the shared sorted term space. -/
structure DocumentVector where
  item : NormalizedItem
  vector : List ℚ
  terms : List String
deriving DecidableEq, Repr

/-- `Object.keys(idf).sort()`: all terms of all documents, deduplicated,
sorted ascending (code-unit order, modelled by the character order). -/
def allTermsOf (documents : List (List (String × ℚ))) : List String :=
  stableSort (fun a b => decide (b < a)) ((documents.map (fun d => d.map Prod.fst)).flatten.dedup)

/-- `createTFIDFVectors` from clustering.ts. -/
def createTFIDFVectors (P : Platform) (items : List NormalizedItem) : List DocumentVector :=
  let documents := items.map (fun i => calculateTF (i.title ++ " " ++ i.text.getD ""))
  let allTerms := allTermsOf documents
  (items.zip documents).map (fun p =>
    { item := p.1,
      vector := allTerms.map (fun t => tfGet p.2 t * idfValue P documents t),
      terms := allTerms })

/-- `getTopKeywords` from clustering.ts: summed per-term scores over the
cluster's vectors, sorted by score descending (stable), top `n` terms. -/
def getTopKeywords (vectors : List DocumentVector) (n : ℕ) : List String :=
  let termScores := vectors.foldl
    (fun acc doc => (doc.terms.zip doc.vector).foldl
      (fun acc2 p => assocAdd acc2 p.1 p.2) acc) []
  ((stableSort (fun a b => decide (a.2 < b.2)) termScores).take n).map Prod.fst

/-! ## Greedy clustering (clustering.ts)

The imperative loop keeps an `assigned` index set; for each unassigned
item (in order) it opens a cluster and folds in every later unassigned
item whose cosine similarity *to that seed* reaches the threshold.  This
is rendered as recursion on the list of still-unassigned vectors: the
head is the next seed, the similar part of the tail joins its cluster,
and the rest stays unassigned for the recursive call — the same clusters
in the same order. -/

/-- `cosineSimilarity` from utils.ts (0 for mismatched lengths and for a
zero norm instead of dividing by zero). -/
def cosineSimilarity (P : Platform) (a b : List ℚ) : ℚ :=
  if a.length ≠ b.length then 0
  else
    let dotProduct := ((a.zip b).map (fun p => p.1 * p.2)).sum
    let normA := (a.map (fun x => x * x)).sum
    let normB := (b.map (fun x => x * x)).sum
    if normA = 0 ∨ normB = 0 then 0
    else dotProduct / (P.sqrt normA * P.sqrt normB)

/-- `clusterBySimilarity` from clustering.ts. -/
def clusterBySimilarity (P : Platform) (θ : ℚ) : List DocumentVector → List (List DocumentVector)
  | [] => []
  | v :: rest =>
    (v :: rest.filter (fun w => decide (θ ≤ cosineSimilarity P v.vector w.vector))) ::
      clusterBySimilarity P θ
        (rest.filter (fun w => !decide (θ ≤ cosineSimilarity P v.vector w.vector)))
termination_by l => l.length
decreasing_by exact Nat.lt_succ_of_le (List.length_filter_le _ _)

/-- `calculateClusterWeight` from clustering.ts; the per-item factor is
the same `recency * Math.log10(cappedEngagement + 2) * relevance` product
as in `aggregateEmotions`, shared here as `itemWeight`. -/
def calculateClusterWeight (P : Platform) (now : ℚ) (items : List NormalizedItem) : ℚ :=
  (items.map (itemWeight P now)).sum

/-- The receipt projection of an item (`itemsToReceipts`' map step). -/
def toReceipt (i : NormalizedItem) : Receipt :=
  { id := i.id, title := i.title, snippet := i.text.getD "", url := i.url,
    source := i.source, language := i.language, engagement := i.engagement,
    createdAt := i.createdAt, location := i.location, faviconUrl := i.faviconUrl,
    imageUrl := i.imageUrl, eventType := i.eventType, eventDate := i.eventDate,
    venue := i.venue, moodScore := i.moodScore }

/-- `itemsToReceipts` from clustering.ts: top `mx` items by engagement. -/
def itemsToReceipts (items : List NormalizedItem) (mx : ℕ) : List Receipt :=
  ((sortByEngagementDesc items).take mx).map toReceipt

/-- `k.charAt(0).toUpperCase() + k.slice(1)`. -/
def capitalizeWord (s : String) : String :=
  match s.toList with
  | [] => ""
  | c :: r => String.mk (c.toUpper :: r)

/-- `generateKeywordTitle` from clustering.ts. -/
def generateKeywordTitle (keywords : List String) : String :=
  String.intercalate " / " ((keywords.take 3).map capitalizeWord)

/-- `CLUSTERING_CONFIG` from the config file. -/
structure ClusteringConfig where
  similarityThreshold : ℚ
  maxTopics : ℕ
  minClusterSize : ℕ
  keywordsPerTopic : ℕ
  receiptsPerTopic : ℕ

/-- The `CLUSTERING_CONFIG` constant. -/
def CLUSTERING_CONFIG : ClusteringConfig :=
  { similarityThreshold := 1/4, maxTopics := 12, minClusterSize := 2,
    keywordsPerTopic := 5, receiptsPerTopic := 5 }

/-- The per-cluster record built inside `clusterIntoTopics`. -/
structure ClusterData where
  items : List NormalizedItem
  vectors : List DocumentVector
  weight : ℚ
  keywords : List String
  emotions : EmotionDistribution
deriving DecidableEq, Repr

/-- The cluster pipeline of `clusterIntoTopics`: raw greedy clusters,
small clusters dropped, weights/keywords/emotions computed, sorted by
weight descending (stable), capped at `maxTopics`. -/
def selectedClusters (P : Platform) (now : ℚ) (items : List NormalizedItem)
    (maxTopics minClusterSize : ℕ) : List ClusterData :=
  let uniqueItems := items.filter (fun i => !optTruthy i.duplicateOf)
  let vectors := createTFIDFVectors P uniqueItems
  let rawClusters := clusterBySimilarity P CLUSTERING_CONFIG.similarityThreshold vectors
  (stableSort (fun a b => decide (a.weight < b.weight))
    ((rawClusters.filter (fun c => minClusterSize ≤ c.length)).map (fun cluster =>
      let clusterItems := cluster.map (fun v => v.item)
      { items := clusterItems,
        vectors := cluster,
        weight := calculateClusterWeight P now clusterItems,
        keywords := getTopKeywords cluster CLUSTERING_CONFIG.keywordsPerTopic,
        emotions := aggregateEmotions P now clusterItems }))).take maxTopics

/-- The Topic built from one selected cluster (the final map of
`clusterIntoTopics`). -/
def mkTopic (P : Platform) (cluster : ClusterData) : Topic :=
  { id := P.hash ("topic:" ++ String.intercalate ":" cluster.keywords),
    title := generateKeywordTitle cluster.keywords,
    keywords := cluster.keywords,
    whyTrending := "Analyzing...",
    emotionMix := cluster.emotions,
    weight := cluster.weight,
    delta := 0,
    receipts := itemsToReceipts cluster.items CLUSTERING_CONFIG.receiptsPerTopic }

/-- `clusterIntoTopics` from clustering.ts (maxTopics and minClusterSize
default to the config values 12 and 2 at the call sites). -/
def clusterIntoTopics (P : Platform) (now : ℚ) (items : List NormalizedItem)
    (maxTopics minClusterSize : ℕ) : List Topic :=
  if items.filter (fun i => !optTruthy i.duplicateOf) = [] then []
  else (selectedClusters P now items maxTopics minClusterSize).map (mkTopic P)

/-! ## Snapshot deltas (the history module) -/

/-- `calculateTensionDelta` from the history module. -/
def calculateTensionDelta (currentTension : ℤ) (ys : Option DailySnapshot) : ℤ :=
  match ys with
  | none => 0
  | some snap => currentTension - snap.tensionIndex

/-- `calculateTopicDelta` from the history module.  (`topTopics` is always
an array in the model, and arrays are truthy in JS, so only a missing
snapshot takes the early-return branch.) -/
def calculateTopicDelta (topic : Topic) (ys : Option DailySnapshot) : ℚ :=
  match ys with
  | none => 0
  | some snap =>
    let bestMatch := snap.topTopics.foldl (fun best yt =>
      let overlap := (topic.keywords.filter (fun k => yt.keywords.contains k)).length
      let maxKeywords := max topic.keywords.length yt.keywords.length
      let similarity : ℚ :=
        if 0 < maxKeywords then (overlap : ℚ) / (maxKeywords : ℚ) else 0
      max best similarity) 0
    if bestMatch < 3/10 then 1 else 0

/-! # Verified properties -/

/-- Any normalized distribution sums to exactly 1: either the sum was 0
and the neutral distribution (sum 1) is returned, or every value is
divided by the (nonzero) sum. -/
theorem sumDist_normalize (d : EmotionDistribution) :
    sumDist (normalizeDistribution d) = 1 := by
  rw [normalizeDistribution]
  by_cases h : sumDist d = 0
  · rw [if_pos h]
    norm_num [sumDist, createEmptyDistribution]
  · rw [if_neg h]
    show d.anger / sumDist d + d.anxiety / sumDist d + d.sadness / sumDist d +
      d.resilience / sumDist d + d.hope / sumDist d + d.excitement / sumDist d +
      d.cynicism / sumDist d + d.neutral / sumDist d = 1
    rw [div_add_div_same, div_add_div_same, div_add_div_same, div_add_div_same,
      div_add_div_same, div_add_div_same, div_add_div_same]
    show sumDist d / sumDist d = 1
    exact div_self h

/-- The neutral distribution is a fixed point of normalization. -/
theorem normalize_empty_eq_neutral :
    normalizeDistribution createEmptyDistribution = neutralDistribution := by
  decide

/-- C1: for every item list (and every platform instantiation and clock
value), the distribution returned by `aggregateEmotions` sums to 1.0
within 1e-5 — in exact arithmetic it sums to exactly 1 — and for an empty
list, a list of items all marked `duplicateOf`, or a zero total weight,
the result is the distribution with `neutral = 1`. -/
theorem aggregateEmotions_sums_to_one (P : Platform) (now : ℚ)
    (items : List NormalizedItem) :
    |sumDist (aggregateEmotions P now items) - 1| ≤ 1/100000 ∧
    sumDist (aggregateEmotions P now items) = 1 ∧
    (items = [] → aggregateEmotions P now items = neutralDistribution) ∧
    ((∀ i ∈ items, optTruthy i.duplicateOf = true) →
      aggregateEmotions P now items = neutralDistribution) ∧
    (totalWeight P now items = 0 →
      aggregateEmotions P now items = neutralDistribution) := by
  have hone : sumDist (aggregateEmotions P now items) = 1 := by
    unfold aggregateEmotions
    split
    · exact sumDist_normalize _
    · split
      · exact sumDist_normalize _
      · exact sumDist_normalize _
  have hzero : totalWeight P now items = 0 →
      aggregateEmotions P now items = neutralDistribution := by
    intro h0
    unfold aggregateEmotions
    by_cases he : items = []
    · rw [if_pos he]; exact normalize_empty_eq_neutral
    · rw [if_neg he, if_pos h0]; exact normalize_empty_eq_neutral
  refine ⟨by rw [hone]; norm_num, hone, ?_, ?_, hzero⟩
  · intro he
    simp [aggregateEmotions, he, normalize_empty_eq_neutral]
  · intro hdup
    apply hzero
    have hlive : liveItems items = [] := by
      rw [liveItems, List.filter_eq_nil_iff]
      intro i hi
      simp [hdup i hi]
    rw [totalWeight, hlive]
    rfl

/-- Closed instance of C1: a singleton list whose item is marked as a
duplicate yields the neutral distribution, which sums to 1. -/
theorem aggregateEmotions_sums_to_one_witness :
    sumDist (aggregateEmotions trivialPlatform 0
      [{ baseItem with duplicateOf := some "x" }]) = 1 ∧
    aggregateEmotions trivialPlatform 0
      [{ baseItem with duplicateOf := some "x" }] = neutralDistribution ∧
    aggregateEmotions trivialPlatform 0 [] = neutralDistribution :=
  ⟨(aggregateEmotions_sums_to_one trivialPlatform 0
      [{ baseItem with duplicateOf := some "x" }]).2.1,
   (aggregateEmotions_sums_to_one trivialPlatform 0
      [{ baseItem with duplicateOf := some "x" }]).2.2.2.1 (by decide),
   (aggregateEmotions_sums_to_one trivialPlatform 0 []).2.2.1 rfl⟩

/-- The tension formula exactly as the claim words it:
`min(100, round(100 * max(0, negativeScore - positiveScore * 0.5)))` with
the stated per-emotion coefficients. -/
def tensionIndexSpec (e : EmotionDistribution) : ℤ :=
  min 100 (jsRound (100 * max 0
    ((e.anger * 1 + e.anxiety * 1 + e.sadness * (7/10) + e.cynicism * (4/10)) -
     (e.resilience * (1/2) + e.hope * (7/10) + e.excitement * (3/10)) * (1/2))))

/-- C2: `calculateTensionIndex` computes exactly the claimed formula with
the claimed weights; the all-neutral distribution yields 0 and the
`anger = 1` distribution yields a value that is at most 100 and
greater than 50. -/
theorem calculateTensionIndex_spec (e : EmotionDistribution) :
    calculateTensionIndex e = tensionIndexSpec e ∧
    calculateTensionIndex neutralDistribution = 0 ∧
    calculateTensionIndex { createEmptyDistribution with anger := 1 } ≤ 100 ∧
    50 < calculateTensionIndex { createEmptyDistribution with anger := 1 } := by
  refine ⟨?_, by decide, by decide, by decide⟩
  simp only [calculateTensionIndex, tensionIndexSpec, EMOTION_WEIGHTS]
  rw [mul_comm _ (100 : ℚ)]

/-- Normalizing the neutral distribution returns it unchanged. -/
theorem normalize_neutral :
    normalizeDistribution neutralDistribution = neutralDistribution := by decide

/-- The per-item emotion scoring exactly as the claim words it: the
neutral distribution when the total keyword-match count is 0, otherwise
the raw per-category counts normalized to sum 1. -/
def scoreItemEmotionsSpec (i : NormalizedItem) : EmotionDistribution :=
  if totalMatches i = 0 then neutralDistribution
  else normalizeDistribution (rawEmotionCounts i)

/-- C5: `scoreItemEmotions` assigns each non-neutral category the count
of its keywords found (case-insensitively) in the item's combined
title/text, normalized to sum 1, and returns the distribution with
`neutral = 1` when no keyword of any category occurs. -/
theorem scoreItemEmotions_spec (i : NormalizedItem) :
    scoreItemEmotions i = scoreItemEmotionsSpec i ∧
    sumDist (scoreItemEmotions i) = 1 ∧
    (totalMatches i = 0 → (scoreItemEmotions i).neutral = 1) := by
  have hspec : scoreItemEmotions i = scoreItemEmotionsSpec i := by
    simp only [scoreItemEmotions, scoreItemEmotionsSpec]
    by_cases h : totalMatches i = 0
    · rw [if_pos h, if_pos h]
      obtain ⟨h1, h2, h3, h4, h5, h6, h7⟩ :
          countKeywordMatches (searchText i) angerKeywords = 0 ∧
          countKeywordMatches (searchText i) anxietyKeywords = 0 ∧
          countKeywordMatches (searchText i) sadnessKeywords = 0 ∧
          countKeywordMatches (searchText i) resilienceKeywords = 0 ∧
          countKeywordMatches (searchText i) hopeKeywords = 0 ∧
          countKeywordMatches (searchText i) excitementKeywords = 0 ∧
          countKeywordMatches (searchText i) cynicismKeywords = 0 := by
        unfold totalMatches at h
        omega
      have hrec : { rawEmotionCounts i with neutral := (1 : ℚ) } = neutralDistribution := by
        ext <;> simp [rawEmotionCounts, neutralDistribution, createEmptyDistribution,
          h1, h2, h3, h4, h5, h6, h7]
      rw [hrec, normalize_neutral]
    · rw [if_neg h, if_neg h]
  refine ⟨hspec, ?_, ?_⟩
  · unfold scoreItemEmotions
    split
    · exact sumDist_normalize _
    · exact sumDist_normalize _
  · intro h
    rw [hspec, scoreItemEmotionsSpec, if_pos h]
    rfl

/-- Closed instance of C5: an item whose title/text contain no configured
emotion keyword receives `neutral = 1`. -/
theorem scoreItemEmotions_spec_witness :
    scoreItemEmotions { baseItem with title := "zz" } =
      scoreItemEmotionsSpec { baseItem with title := "zz" } ∧
    (scoreItemEmotions { baseItem with title := "zz" }).neutral = 1 :=
  ⟨(scoreItemEmotions_spec { baseItem with title := "zz" }).1,
   (scoreItemEmotions_spec { baseItem with title := "zz" }).2.2 (by decide)⟩

/-- The per-topic keyword overlap exactly as the claim words it:
|keyword intersection| / max(#today keywords, #yesterday keywords).
(In ℚ a division by a zero maximum yields 0, matching the code's
`maxKeywords > 0` guard.) -/
def topicOverlapSpec (topic : Topic) (yt : SnapshotTopic) : ℚ :=
  ((topic.keywords.inter yt.keywords).length : ℚ) /
    ((max topic.keywords.length yt.keywords.length : ℕ) : ℚ)

/-- The best keyword overlap across yesterday's abbreviated topics. -/
def topicBestMatchSpec (topic : Topic) (snap : DailySnapshot) : ℚ :=
  (snap.topTopics.map (topicOverlapSpec topic)).foldl max 0

/-- A left fold of `max` starting at an upper bound of the list stays
there. -/
theorem foldl_max_of_le (l : List ℚ) (a : ℚ) (h : ∀ x ∈ l, x ≤ a) :
    l.foldl max a = a := by
  induction l generalizing a with
  | nil => rfl
  | cons x xs ih =>
    simp only [List.foldl_cons]
    rw [max_eq_left (h x (by simp))]
    exact ih a (fun y hy => h y (by simp [hy]))

/-- C6: `calculateTopicDelta` returns 0 for a missing snapshot, and
otherwise returns 1 exactly when the best keyword overlap with
yesterday's topics is below 0.3; in particular a topic sharing no
keyword with any prior-day topic yields 1. -/
theorem calculateTopicDelta_spec (topic : Topic) (snap : DailySnapshot) :
    calculateTopicDelta topic none = 0 ∧
    calculateTopicDelta topic (some snap) =
      (if topicBestMatchSpec topic snap < 3/10 then 1 else 0) ∧
    ((∀ yt ∈ snap.topTopics, ∀ k ∈ topic.keywords, k ∉ yt.keywords) →
      calculateTopicDelta topic (some snap) = 1) := by
  have hsim : ∀ yt : SnapshotTopic,
      (if 0 < max topic.keywords.length yt.keywords.length then
        ((topic.keywords.filter (fun k => yt.keywords.contains k)).length : ℚ) /
          ((max topic.keywords.length yt.keywords.length : ℕ) : ℚ)
      else 0) = topicOverlapSpec topic yt := by
    intro yt
    rw [topicOverlapSpec]
    by_cases h : 0 < max topic.keywords.length yt.keywords.length
    · rw [if_pos h]
      rfl
    · rw [if_neg h]
      have h0 : max topic.keywords.length yt.keywords.length = 0 := by omega
      rw [h0]
      simp
  have hbest : calculateTopicDelta topic (some snap) =
      (if topicBestMatchSpec topic snap < 3/10 then 1 else 0) := by
    simp only [calculateTopicDelta, topicBestMatchSpec, List.foldl_map, hsim]
  refine ⟨rfl, hbest, ?_⟩
  intro hnone
  rw [hbest]
  have hz : topicBestMatchSpec topic snap = 0 := by
    apply foldl_max_of_le
    intro x hx
    obtain ⟨yt, hyt, hfx⟩ := List.mem_map.mp hx
    have hinter : topic.keywords.inter yt.keywords = [] := by
      have hdef : topic.keywords.inter yt.keywords =
          topic.keywords.filter (fun k => yt.keywords.contains k) := rfl
      rw [hdef, List.filter_eq_nil_iff]
      intro k hk
      simpa using hnone yt hyt k hk
    rw [← hfx, topicOverlapSpec, hinter]
    simp
  rw [hz]
  norm_num

/-- Closed instance of C6: delta 0 for a missing snapshot, delta 1 for a
topic sharing no keyword with yesterday's only topic. -/
theorem calculateTopicDelta_spec_witness :
    calculateTopicDelta
      { id := "", title := "", keywords := ["alpha"], whyTrending := "",
        emotionMix := neutralDistribution, weight := 0, delta := 0, receipts := [] }
      none = 0 ∧
    calculateTopicDelta
      { id := "", title := "", keywords := ["alpha"], whyTrending := "",
        emotionMix := neutralDistribution, weight := 0, delta := 0, receipts := [] }
      (some { date := "", tensionIndex := 0, emotions := neutralDistribution,
              topTopics := [{ keywords := ["gamma"], receiptIds := [] }],
              llmOutputs := [] }) = 1 :=
  ⟨(calculateTopicDelta_spec _
      { date := "", tensionIndex := 0, emotions := neutralDistribution,
        topTopics := [{ keywords := ["gamma"], receiptIds := [] }],
        llmOutputs := [] }).1,
   (calculateTopicDelta_spec
      { id := "", title := "", keywords := ["alpha"], whyTrending := "",
        emotionMix := neutralDistribution, weight := 0, delta := 0, receipts := [] }
      { date := "", tensionIndex := 0, emotions := neutralDistribution,
        topTopics := [{ keywords := ["gamma"], receiptIds := [] }],
        llmOutputs := [] }).2.2 (by decide)⟩

/-- C9: `cosineSimilarity` is total: when either vector has zero norm the
result is 0, and the dividing branch is reached only with both norms
nonzero, where (for a square root positive on positives, as `Math.sqrt`
is) the divisor is nonzero. -/
theorem cosineSimilarity_total (P : Platform) (a b : List ℚ)
    (hsqrt : ∀ x : ℚ, 0 < x → 0 < P.sqrt x) :
    ((a.map (fun x => x * x)).sum = 0 ∨ (b.map (fun x => x * x)).sum = 0 →
      cosineSimilarity P a b = 0) ∧
    (a.length = b.length → (a.map (fun x => x * x)).sum ≠ 0 →
      (b.map (fun x => x * x)).sum ≠ 0 →
      P.sqrt ((a.map (fun x => x * x)).sum) *
        P.sqrt ((b.map (fun x => x * x)).sum) ≠ 0 ∧
      cosineSimilarity P a b =
        ((a.zip b).map (fun p => p.1 * p.2)).sum /
          (P.sqrt ((a.map (fun x => x * x)).sum) *
            P.sqrt ((b.map (fun x => x * x)).sum))) := by
  constructor
  · intro h
    simp only [cosineSimilarity]
    by_cases hl : a.length ≠ b.length
    · rw [if_pos hl]
    · rw [if_neg hl, if_pos h]
  · intro hl hA hB
    have hA0 : 0 ≤ (a.map (fun x => x * x)).sum := by
      apply List.sum_nonneg
      intro x hx
      obtain ⟨y, _, hy⟩ := List.mem_map.mp hx
      rw [← hy]
      exact mul_self_nonneg y
    have hB0 : 0 ≤ (b.map (fun x => x * x)).sum := by
      apply List.sum_nonneg
      intro x hx
      obtain ⟨y, _, hy⟩ := List.mem_map.mp hx
      rw [← hy]
      exact mul_self_nonneg y
    have hApos : 0 < (a.map (fun x => x * x)).sum := lt_of_le_of_ne hA0 (Ne.symm hA)
    have hBpos : 0 < (b.map (fun x => x * x)).sum := lt_of_le_of_ne hB0 (Ne.symm hB)
    have hdiv : P.sqrt ((a.map (fun x => x * x)).sum) *
        P.sqrt ((b.map (fun x => x * x)).sum) ≠ 0 :=
      mul_ne_zero (ne_of_gt (hsqrt _ hApos)) (ne_of_gt (hsqrt _ hBpos))
    refine ⟨hdiv, ?_⟩
    simp only [cosineSimilarity]
    rw [if_neg (by simp [hl]), if_neg (by simp [hA, hB])]

/-- Closed instance of C9: a zero-norm vector gives similarity 0, and a
concrete nonzero pair has a nonzero divisor. -/
theorem cosineSimilarity_total_witness :
    cosineSimilarity trivialPlatform [1, 0] [0, 0] = 0 ∧
    trivialPlatform.sqrt ((([1] : List ℚ).map (fun x => x * x)).sum) *
      trivialPlatform.sqrt ((([1] : List ℚ).map (fun x => x * x)).sum) ≠ 0 :=
  ⟨(cosineSimilarity_total trivialPlatform [1, 0] [0, 0]
      (fun _ h => h)).1 (Or.inr (by decide)),
   ((cosineSimilarity_total trivialPlatform [1] [1]
      (fun _ h => h)).2 rfl (by decide) (by decide)).1⟩

/-- A match of the whole needle at the front of a haystack is also a
match of any front part of the needle. -/
theorem matchesAt_take : ∀ (n l : List Char) (k : ℕ),
    matchesAt l n = true → matchesAt l (n.take k) = true := by
  intro n
  induction n with
  | nil =>
    intro l k _
    simp [matchesAt]
  | cons x ns ih =>
    intro l k h
    cases k with
    | zero => simp [matchesAt]
    | succ k =>
      cases l with
      | nil => simp [matchesAt] at h
      | cons c cs =>
        simp only [List.take_succ_cons]
        simp only [matchesAt, Bool.and_eq_true] at h ⊢
        exact ⟨h.1, ih cs k h.2⟩

/-- `includes` is monotone under taking a front part of the needle. -/
theorem containsSub_take (k : ℕ) : ∀ (hay n : List Char),
    containsSub hay n = true → containsSub hay (n.take k) = true := by
  intro hay
  induction hay with
  | nil =>
    intro n h
    simp only [containsSub, List.isEmpty_iff] at h
    simp [containsSub, h]
  | cons c t ih =>
    intro n h
    simp only [containsSub, Bool.or_eq_true] at h ⊢
    rcases h with h | h
    · exact Or.inl (matchesAt_take n (c :: t) k h)
    · exact Or.inr (ih n h)

/-- C8 (amended): if the two normalized URLs differ, one lowercased title
has MORE than 20 characters (the code tests `length > 20`, not `≥ 20`)
and is contained in the other lowercased title, then the similarity is
floored at 0.85. -/
theorem calculateSimilarity_substring_floor (a b : NormalizedItem)
    (hurl : normalizeUrl a.url ≠ normalizeUrl b.url)
    (hlen : 20 < (lowerStr a.title).length)
    (hsub : containsSub (lowerStr b.title) (lowerStr a.title) = true) :
    85/100 ≤ calculateSimilarity a b := by
  have hsub30 : containsSub (lowerStr b.title) ((lowerStr a.title).take 30) = true :=
    containsSub_take 30 _ _ hsub
  simp only [calculateSimilarity]
  rw [if_neg (fun hcon => hurl hcon.2.2)]
  have hcond : (decide (20 < (lowerStr a.title).length) &&
      containsSub (lowerStr b.title) ((lowerStr a.title).take 30)) = true := by
    rw [hsub30, decide_eq_true hlen]
    rfl
  rw [if_pos (by rw [Bool.or_eq_true]; exact Or.inl hcond)]
  exact le_max_right _ _

/-- A pair of items for the C8 counterexample: the first title has
exactly 20 characters and is a leading substring of the second; their
URLs differ, and the title Jaccard similarity is 5/17 < 0.3. -/
def cexItemA : NormalizedItem :=
  { baseItem with title := "zeb wal qqq rrr ssss", url := "u1" }

/-- The longer item of the C8 counterexample pair. -/
def cexItemB : NormalizedItem :=
  { baseItem with
    title := "zeb wal qqq rrr ssss aab aac aad aae aaf aag aah aai aaj aak aal aam",
    url := "u2" }

/-- C8 counterexample: with a contained title of exactly 20 characters
(the claim's "at least 20") and distinct normalized URLs, the similarity
is 5/17, below the claimed floor of 0.85 — the code requires strictly
more than 20 characters. -/
theorem calculateSimilarity_substring_counterexample :
    normalizeUrl cexItemA.url ≠ normalizeUrl cexItemB.url ∧
    20 ≤ (lowerStr cexItemA.title).length ∧
    containsSub (lowerStr cexItemB.title) (lowerStr cexItemA.title) = true ∧
    calculateSimilarity cexItemA cexItemB < 85/100 := by decide

/-- A 21-character title contained in a longer title (for the amended C8
floor at work on a concrete pair). -/
def cexItemA2 : NormalizedItem :=
  { baseItem with title := "zeb wal qqq rrr sssst", url := "u1" }

/-- The longer item of the amended-C8 witness pair. -/
def cexItemB2 : NormalizedItem :=
  { baseItem with title := "zeb wal qqq rrr sssst more words", url := "u2" }

/-- Closed instance of the amended C8: a 21-character contained title is
floored at similarity 0.85. -/
theorem calculateSimilarity_substring_floor_witness :
    85/100 ≤ calculateSimilarity cexItemA2 cexItemB2 :=
  calculateSimilarity_substring_floor cexItemA2 cexItemB2
    (by decide) (by decide) (by decide)

/-- Shifting the clock multiplies every recency weight by one common
factor, provided `exp` turns sums into products (as the real exponential
does). -/
theorem recencyWeight_shift (P : Platform)
    (hom : ∀ x y : ℚ, P.exp (x + y) = P.exp x * P.exp y)
    (now1 now2 t hl : ℚ) :
    recencyWeight P now2 t hl =
      P.exp (-(693/1000) * ((now2 - now1) / (1000 * 60 * 60)) / hl) *
        recencyWeight P now1 t hl := by
  simp only [recencyWeight]
  rw [← hom]
  congr 1
  ring

/-- The per-item aggregation weight scales by the same clock-shift
factor. -/
theorem itemWeight_shift (P : Platform)
    (hom : ∀ x y : ℚ, P.exp (x + y) = P.exp x * P.exp y)
    (now1 now2 : ℚ) (i : NormalizedItem) :
    itemWeight P now2 i =
      P.exp (-(693/1000) * ((now2 - now1) / (1000 * 60 * 60)) / 6) *
        itemWeight P now1 i := by
  simp only [itemWeight]
  rw [recencyWeight_shift P hom now1 now2]
  ring

/-- The total aggregation weight scales by the clock-shift factor. -/
theorem totalWeight_shift (P : Platform)
    (hom : ∀ x y : ℚ, P.exp (x + y) = P.exp x * P.exp y)
    (now1 now2 : ℚ) (items : List NormalizedItem) :
    totalWeight P now2 items =
      P.exp (-(693/1000) * ((now2 - now1) / (1000 * 60 * 60)) / 6) *
        totalWeight P now1 items := by
  simp only [totalWeight]
  rw [← List.sum_map_mul_left]
  congr 1
  apply List.map_congr_left
  intro i _
  exact itemWeight_shift P hom now1 now2 i

/-- Each weighted per-category sum scales by the clock-shift factor. -/
theorem weightedField_shift (P : Platform)
    (hom : ∀ x y : ℚ, P.exp (x + y) = P.exp x * P.exp y)
    (now1 now2 : ℚ) (items : List NormalizedItem)
    (f : EmotionDistribution → ℚ) :
    ((liveItems items).map
        (fun i => f (scoreItemEmotions i) * itemWeight P now2 i)).sum =
      P.exp (-(693/1000) * ((now2 - now1) / (1000 * 60 * 60)) / 6) *
        ((liveItems items).map
          (fun i => f (scoreItemEmotions i) * itemWeight P now1 i)).sum := by
  rw [← List.sum_map_mul_left]
  congr 1
  apply List.map_congr_left
  intro i _
  rw [itemWeight_shift P hom now1 now2 i]
  ring

/-- C4 (amended): with the `Date.now()` reading made an explicit clock
argument, `aggregateEmotions` does not depend on it at all — the common
decay factor cancels in the final normalization — whenever `exp` is a
positive exponential homomorphism, as the real `Math.exp` is. -/
theorem aggregateEmotions_time_invariant (P : Platform) (now1 now2 : ℚ)
    (items : List NormalizedItem)
    (hom : ∀ x y : ℚ, P.exp (x + y) = P.exp x * P.exp y)
    (hpos : ∀ x : ℚ, 0 < P.exp x) :
    aggregateEmotions P now1 items = aggregateEmotions P now2 items := by
  have hc : P.exp (-(693/1000) * ((now2 - now1) / (1000 * 60 * 60)) / 6) ≠ 0 :=
    ne_of_gt (hpos _)
  have ht := totalWeight_shift P hom now1 now2 items
  unfold aggregateEmotions
  by_cases he : items = []
  · rw [if_pos he, if_pos he]
  · rw [if_neg he, if_neg he]
    by_cases h0 : totalWeight P now1 items = 0
    · rw [if_pos h0, if_pos (by rw [ht, h0, mul_zero])]
    · have h0' : totalWeight P now2 items ≠ 0 := by
        rw [ht]
        exact mul_ne_zero hc h0
      rw [if_neg h0, if_neg h0']
      congr 1
      ext <;>
        simp only [divDist, weightedSums] <;>
        rw [ht, weightedField_shift P hom now1 now2 items, mul_div_mul_left _ _ hc]

/-- Closed instance of the amended C4: a constant-1 `exp` is a positive
homomorphism, and the aggregate over a concrete item is the same at two
different clock readings. -/
theorem aggregateEmotions_time_invariant_witness :
    aggregateEmotions trivialPlatform 0 [{ baseItem with title := "angry" }] =
      aggregateEmotions trivialPlatform 21600000 [{ baseItem with title := "angry" }] :=
  aggregateEmotions_time_invariant trivialPlatform 0 21600000
    [{ baseItem with title := "angry" }]
    (fun x y => by norm_num [trivialPlatform])
    (fun x => by norm_num [trivialPlatform])

/-- A platform whose `exp` matches `Math.exp` (to float accuracy) at the
two arguments evaluated in the C4 counterexample: `exp 0 = 1` and
`exp (-0.693) ≈ 0.5`, and whose `log10` is the constant `0.301 ≈
log10(0 + 2)`. -/
def cexPlatform : Platform :=
  { trivialPlatform with
    exp := fun x => if x = 0 then 1 else 1/2,
    log10 := fun _ => 301/1000 }

/-- C4 counterexample: `calculateClusterWeight` reads the wall clock
through `recencyWeight`; evaluating the same item list six hours later
(clock 21600000 ms instead of 0) yields a different weight, so the
cluster-weight computation is not independent of the hidden clock
state. -/
theorem calculateClusterWeight_wallclock_dependent :
    calculateClusterWeight cexPlatform 0 [baseItem] ≠
      calculateClusterWeight cexPlatform 21600000 [baseItem] := by decide

/-- Stable insertion permutes to a cons. -/
theorem insertStable_perm (lt : α → α → Bool) (x : α) (l : List α) :
    (insertStable lt x l).Perm (x :: l) := by
  induction l with
  | nil => exact List.Perm.refl _
  | cons y ys ih =>
    simp only [insertStable]
    by_cases h : lt x y
    · rw [if_pos h]
      exact (List.Perm.cons y ih).trans (List.Perm.swap x y ys)
    · rw [if_neg h]

/-- The stable sort is a permutation of its input. -/
theorem stableSort_perm (lt : α → α → Bool) (l : List α) :
    (stableSort lt l).Perm l := by
  induction l with
  | nil => exact List.Perm.refl _
  | cons x xs ih =>
    exact (insertStable_perm lt x (stableSort lt xs)).trans (ih.cons x)

/-- The concatenation of the greedy clusters is a permutation of the
input vector list. -/
theorem clusterBySimilarity_flatten_perm (P : Platform) (θ : ℚ) :
    ∀ (n : ℕ) (l : List DocumentVector), l.length ≤ n →
      ((clusterBySimilarity P θ l).flatten).Perm l := by
  intro n
  induction n with
  | zero =>
    intro l hl
    rw [List.eq_nil_of_length_eq_zero (Nat.le_zero.mp hl)]
    simp [clusterBySimilarity]
  | succ n ih =>
    intro l hl
    cases l with
    | nil => simp [clusterBySimilarity]
    | cons v rest =>
      simp only [clusterBySimilarity, List.flatten_cons, List.cons_append]
      have hf : (rest.filter
          (fun w => !decide (θ ≤ cosineSimilarity P v.vector w.vector))).length ≤ n := by
        have h1 := List.length_filter_le
          (fun w => !decide (θ ≤ cosineSimilarity P v.vector w.vector)) rest
        simp only [List.length_cons, Nat.succ_le_succ_iff] at hl
        omega
      refine List.Perm.cons v ?_
      exact (List.Perm.append_left _ (ih _ hf)).trans (List.filter_append_perm _ rest)

/-- An element of a flatten of pairwise-disjoint lists lies in exactly
one of them. -/
theorem countP_flatten_nodup {α : Type} [DecidableEq α] :
    ∀ (L : List (List α)) (x : α), x ∈ L.flatten → L.flatten.Nodup →
      L.countP (fun c => decide (x ∈ c)) = 1 := by
  intro L
  induction L with
  | nil => intro x hx _; simp at hx
  | cons c Cs ih =>
    intro x hx hnd
    rw [List.flatten_cons] at hx hnd
    rw [List.nodup_append] at hnd
    obtain ⟨hc, hcs, hdisj⟩ := hnd
    rw [List.countP_cons]
    rcases List.mem_append.mp hx with h | h
    · have h0 : Cs.countP (fun c' => decide (x ∈ c')) = 0 := by
        rw [List.countP_eq_zero]
        intro c' hc'
        simp only [decide_eq_true_eq]
        intro hxc'
        exact hdisj h (List.mem_flatten.mpr ⟨c', hc', hxc'⟩)
      rw [h0]
      simp [h]
    · have h0 : x ∉ c := fun hxc => hdisj hxc h
      rw [ih x h hcs]
      simp [h0]

/-- Every greedy cluster is non-empty, starts with its seed, and its
remaining members were folded in because they reach the similarity
threshold against that seed. -/
theorem clusterBySimilarity_shape (P : Platform) (θ : ℚ) :
    ∀ (n : ℕ) (l : List DocumentVector), l.length ≤ n →
      ∀ c ∈ clusterBySimilarity P θ l, ∃ s t, c = s :: t ∧
        ∀ w ∈ t, θ ≤ cosineSimilarity P s.vector w.vector := by
  intro n
  induction n with
  | zero =>
    intro l hl c hc
    rw [List.eq_nil_of_length_eq_zero (Nat.le_zero.mp hl)] at hc
    simp [clusterBySimilarity] at hc
  | succ n ih =>
    intro l hl c hc
    cases l with
    | nil => simp [clusterBySimilarity] at hc
    | cons v rest =>
      simp only [clusterBySimilarity, List.mem_cons] at hc
      rcases hc with hc | hc
      · refine ⟨v, rest.filter
          (fun w => decide (θ ≤ cosineSimilarity P v.vector w.vector)), hc, ?_⟩
        intro w hw
        simpa using (List.mem_filter.mp hw).2
      · have hf : (rest.filter
            (fun w => !decide (θ ≤ cosineSimilarity P v.vector w.vector))).length ≤ n := by
          have h1 := List.length_filter_le
            (fun w => !decide (θ ≤ cosineSimilarity P v.vector w.vector)) rest
          simp only [List.length_cons, Nat.succ_le_succ_iff] at hl
          omega
        exact ih _ hf c hc

/-- C10: `clusterBySimilarity` partitions its input: the clusters
concatenate to a permutation of the input, each input vector (for a
duplicate-free input) belongs to exactly one cluster, and every cluster
is non-empty with its seed first and every other member similar to the
seed. -/
theorem clusterBySimilarity_partition (P : Platform) (θ : ℚ)
    (l : List DocumentVector) (hnd : l.Nodup) :
    ((clusterBySimilarity P θ l).flatten).Perm l ∧
    (∀ x ∈ l, (clusterBySimilarity P θ l).countP (fun c => decide (x ∈ c)) = 1) ∧
    (∀ c ∈ clusterBySimilarity P θ l, ∃ s t, c = s :: t ∧
      ∀ w ∈ t, θ ≤ cosineSimilarity P s.vector w.vector) := by
  have hperm := clusterBySimilarity_flatten_perm P θ l.length l le_rfl
  refine ⟨hperm, ?_, clusterBySimilarity_shape P θ l.length l le_rfl⟩
  intro x hx
  exact countP_flatten_nodup _ x (hperm.mem_iff.mpr hx) (hperm.nodup_iff.mpr hnd)

/-- A two-element vector list for the C10 witness. -/
def dvList : List DocumentVector :=
  [{ item := { baseItem with id := "a" }, vector := [1], terms := [] },
   { item := { baseItem with id := "b" }, vector := [1], terms := [] }]

/-- Closed instance of C10 on a concrete two-vector input. -/
theorem clusterBySimilarity_partition_witness :
    ((clusterBySimilarity trivialPlatform (1/4) dvList).flatten).Perm dvList ∧
    (∀ x ∈ dvList, (clusterBySimilarity trivialPlatform (1/4) dvList).countP
      (fun c => decide (x ∈ c)) = 1) ∧
    (∀ c ∈ clusterBySimilarity trivialPlatform (1/4) dvList, ∃ s t, c = s :: t ∧
      ∀ w ∈ t, 1/4 ≤ cosineSimilarity trivialPlatform s.vector w.vector) :=
  clusterBySimilarity_partition trivialPlatform (1/4) dvList (by decide)

/-- When the duplicate filter leaves nothing, the cluster pipeline is
empty. -/
theorem selectedClusters_nil_of_filter (P : Platform) (now : ℚ)
    (items : List NormalizedItem) (maxTopics minClusterSize : ℕ)
    (h : items.filter (fun i => !optTruthy i.duplicateOf) = []) :
    selectedClusters P now items maxTopics minClusterSize = [] := by
  simp [selectedClusters, h, createTFIDFVectors, clusterBySimilarity, stableSort]

/-- C7: `clusterIntoTopics` returns the empty topic list on an empty (or
all-duplicate) input; its output never exceeds `maxTopics` topics; and
every returned topic is built (`mkTopic`) from a selected cluster of at
least `minClusterSize` member items. -/
theorem clusterIntoTopics_spec (P : Platform) (now : ℚ)
    (items : List NormalizedItem) (maxTopics minClusterSize : ℕ) :
    clusterIntoTopics P now [] maxTopics minClusterSize = [] ∧
    ((∀ i ∈ items, optTruthy i.duplicateOf = true) →
      clusterIntoTopics P now items maxTopics minClusterSize = []) ∧
    (clusterIntoTopics P now items maxTopics minClusterSize).length ≤ maxTopics ∧
    clusterIntoTopics P now items maxTopics minClusterSize =
      (selectedClusters P now items maxTopics minClusterSize).map (mkTopic P) ∧
    (∀ c ∈ selectedClusters P now items maxTopics minClusterSize,
      minClusterSize ≤ c.items.length) := by
  have hsel : (selectedClusters P now items maxTopics minClusterSize).length ≤ maxTopics := by
    simp only [selectedClusters]
    exact List.length_take_le _ _
  have hmap : clusterIntoTopics P now items maxTopics minClusterSize =
      (selectedClusters P now items maxTopics minClusterSize).map (mkTopic P) := by
    by_cases hfil : items.filter (fun i => !optTruthy i.duplicateOf) = []
    · rw [clusterIntoTopics, if_pos hfil,
        selectedClusters_nil_of_filter P now items maxTopics minClusterSize hfil,
        List.map_nil]
    · rw [clusterIntoTopics, if_neg hfil]
  refine ⟨by simp [clusterIntoTopics], ?_, ?_, hmap, ?_⟩
  · intro hdup
    have hfil : items.filter (fun i => !optTruthy i.duplicateOf) = [] := by
      rw [List.filter_eq_nil_iff]
      intro i hi
      simp [hdup i hi]
    rw [clusterIntoTopics, if_pos hfil]
  · rw [hmap, List.length_map]
    exact hsel
  · intro c hc
    simp only [selectedClusters] at hc
    have hc1 := List.mem_of_mem_take hc
    have hc2 := (stableSort_perm _ _).mem_iff.mp hc1
    obtain ⟨rc, hrc, hceq⟩ := List.mem_map.mp hc2
    have hlen : minClusterSize ≤ rc.length := by
      simpa using (List.mem_filter.mp hrc).2
    rw [← hceq]
    simpa using hlen

/-- Closed instance of C7: the empty input and an all-duplicates input
give the empty topic list, within the 12-topic cap. -/
theorem clusterIntoTopics_spec_witness :
    clusterIntoTopics trivialPlatform 0 [] 12 2 = [] ∧
    clusterIntoTopics trivialPlatform 0
      [{ baseItem with duplicateOf := some "d" }] 12 2 = [] ∧
    (clusterIntoTopics trivialPlatform 0
      [{ baseItem with duplicateOf := some "d" }] 12 2).length ≤ 12 :=
  ⟨(clusterIntoTopics_spec trivialPlatform 0 [] 12 2).1,
   (clusterIntoTopics_spec trivialPlatform 0
      [{ baseItem with duplicateOf := some "d" }] 12 2).2.1 (by decide),
   (clusterIntoTopics_spec trivialPlatform 0
      [{ baseItem with duplicateOf := some "d" }] 12 2).2.2.1⟩

/-! ## Idempotence of deduplication

The dedup loop accepts an item exactly when its normalized URL is not
among the accepted URLs and it is not similar to any accepted item.  The
output list records, at every position, that its element was accepted
against the items before it — and re-running the loop on such a list
accepts everything again. -/

/-- The acceptance condition of one dedup-loop step: the candidate's
normalized URL is not blocked by `seen` and no already-accepted item is
similar at the threshold. -/
def dedupAccepts (θ : ℚ) (i : NormalizedItem) (unique : List NormalizedItem)
    (seen : List String) : Prop :=
  ¬((urlKey i != "") ∧ urlKey i ∈ seen) ∧ similarToAccepted θ i unique = false

/-- Every element of the second list is accepted against the first list
extended with the elements before it (with the seen-URL set always the
URLs of the accepted items). -/
def GoodRec (θ : ℚ) : List NormalizedItem → List NormalizedItem → Prop
  | _, [] => True
  | pre, y :: rest =>
    dedupAccepts θ y pre (urlList pre) ∧ GoodRec θ (pre ++ [y]) rest

/-- `urlList` distributes over appending. -/
theorem urlList_append (a b : List NormalizedItem) :
    urlList (a ++ b) = urlList a ++ urlList b := by
  simp [urlList, List.filter_append]

/-- Pass-two lemma: the dedup loop keeps every element of an
all-accepted list. -/
theorem dedupGo_of_goodRec (θ : ℚ) :
    ∀ (Y unique : List NormalizedItem), GoodRec θ unique Y →
      dedupGo θ Y unique (urlList unique) = unique ++ Y := by
  intro Y
  induction Y with
  | nil => intro u _; simp [dedupGo]
  | cons y Y ih =>
    intro u hg
    simp only [GoodRec] at hg
    obtain ⟨⟨hurl, hsim⟩, hrec⟩ := hg
    simp only [dedupGo]
    rw [if_neg hurl, if_neg (by simp [hsim]), ← urlList_append, ih (u ++ [y]) hrec]
    simp

/-- An all-accepted list stays all-accepted after appending one more
item accepted against the whole of it. -/
theorem GoodRec_snoc (θ : ℚ) :
    ∀ (U pre : List NormalizedItem) (i : NormalizedItem),
      GoodRec θ pre U →
      dedupAccepts θ i (pre ++ U) (urlList (pre ++ U)) →
      GoodRec θ pre (U ++ [i]) := by
  intro U
  induction U with
  | nil =>
    intro pre i _ hacc
    simp only [List.append_nil] at hacc
    simp only [List.nil_append, GoodRec]
    exact ⟨hacc, trivial⟩
  | cons y U ih =>
    intro pre i hg hacc
    simp only [GoodRec] at hg
    simp only [List.cons_append, GoodRec]
    refine ⟨hg.1, ih (pre ++ [y]) i hg.2 ?_⟩
    have he : (pre ++ [y]) ++ U = pre ++ y :: U := by
      simp [List.append_assoc]
    rw [he]
    exact hacc

/-- Pass-one lemma: the accepted output of the dedup loop is an
all-accepted list. -/
theorem dedupGo_goodRec (θ : ℚ) :
    ∀ (X unique : List NormalizedItem), GoodRec θ [] unique →
      GoodRec θ [] (dedupGo θ X unique (urlList unique)) := by
  intro X
  induction X with
  | nil => intro u hg; simpa [dedupGo] using hg
  | cons i X ih =>
    intro u hg
    simp only [dedupGo]
    by_cases h1 : (urlKey i != "") ∧ urlKey i ∈ urlList u
    · rw [if_pos h1]
      exact ih u hg
    · rw [if_neg h1]
      by_cases h2 : similarToAccepted θ i u = true
      · rw [if_pos h2]
        exact ih u hg
      · rw [if_neg h2, ← urlList_append]
        apply ih (u ++ [i])
        refine GoodRec_snoc θ u [] i hg ?_
        simp only [List.nil_append]
        exact ⟨h1, by simpa using h2⟩

/-- The dedup loop appends an in-order selection of its input to the
accumulator. -/
theorem dedupGo_sublist (θ : ℚ) :
    ∀ (X unique : List NormalizedItem) (seen : List String),
      ∃ s, s.Sublist X ∧ dedupGo θ X unique seen = unique ++ s := by
  intro X
  induction X with
  | nil => intro u seen; exact ⟨[], List.Sublist.refl [], by simp [dedupGo]⟩
  | cons i X ih =>
    intro u seen
    by_cases h1 : (urlKey i != "") ∧ urlKey i ∈ seen
    · obtain ⟨s, hs, he⟩ := ih u seen
      exact ⟨s, hs.cons i, by simp only [dedupGo]; rw [if_pos h1]; exact he⟩
    · by_cases h2 : similarToAccepted θ i u = true
      · obtain ⟨s, hs, he⟩ := ih u seen
        exact ⟨s, hs.cons i,
          by simp only [dedupGo]; rw [if_neg h1, if_pos h2]; exact he⟩
      · obtain ⟨s, hs, he⟩ := ih (u ++ [i]) (seen ++ urlList [i])
        refine ⟨i :: s, hs.cons₂ i, ?_⟩
        simp only [dedupGo]
        rw [if_neg h1, if_neg h2, he]
        simp

/-- Non-increasing engagement order (the comparator
`(a, b) => b.engagement - a.engagement` sorts into this order). -/
def engLE (a b : NormalizedItem) : Prop := b.engagement ≤ a.engagement

/-- Stable insertion preserves the non-increasing-engagement order. -/
theorem insertStable_eng_pairwise (x : NormalizedItem)
    (l : List NormalizedItem) (h : l.Pairwise engLE) :
    (insertStable (fun a b => decide (a.engagement < b.engagement)) x l).Pairwise engLE := by
  induction l with
  | nil => simp [insertStable, engLE]
  | cons y ys ih =>
    rw [List.pairwise_cons] at h
    obtain ⟨hy, hys⟩ := h
    simp only [insertStable]
    by_cases hlt : x.engagement < y.engagement
    · rw [if_pos (decide_eq_true hlt)]
      rw [List.pairwise_cons]
      refine ⟨?_, ih hys⟩
      intro b hb
      rcases List.mem_cons.mp ((insertStable_perm _ x ys).mem_iff.mp hb) with hb | hb
      · rw [hb]
        exact le_of_lt hlt
      · exact hy b hb
    · rw [if_neg (by simpa using hlt)]
      rw [List.pairwise_cons]
      refine ⟨?_, List.pairwise_cons.mpr ⟨hy, hys⟩⟩
      intro b hb
      rcases List.mem_cons.mp hb with hb | hb
      · rw [hb]
        exact le_of_not_lt hlt
      · exact le_trans (hy b hb) (le_of_not_lt hlt)

/-- The engagement sort produces a non-increasing list. -/
theorem sortByEngagementDesc_pairwise (l : List NormalizedItem) :
    (sortByEngagementDesc l).Pairwise engLE := by
  unfold sortByEngagementDesc
  induction l with
  | nil => simp [stableSort]
  | cons x xs ih =>
    simp only [stableSort]
    exact insertStable_eng_pairwise x _ ih

/-- Sorting an already non-increasing list is the identity (the sort is
stable, so elements with equal engagement keep their order). -/
theorem sortByEngagementDesc_eq_self :
    ∀ l : List NormalizedItem, l.Pairwise engLE → sortByEngagementDesc l = l := by
  intro l
  unfold sortByEngagementDesc
  induction l with
  | nil => intro _; rfl
  | cons x xs ih =>
    intro h
    rw [List.pairwise_cons] at h
    obtain ⟨hx, hxs⟩ := h
    simp only [stableSort]
    rw [ih hxs]
    cases xs with
    | nil => rfl
    | cons y ys =>
      simp only [insertStable]
      rw [if_neg (by simpa using not_lt.mpr (hx y (by simp)))]

/-- C3: `deduplicateItems` is idempotent — applied to its own output (at
any threshold) it returns that output unchanged, element for element. -/
theorem deduplicateItems_idempotent (θ : ℚ) (items : List NormalizedItem) :
    deduplicateItems θ (deduplicateItems θ items) = deduplicateItems θ items := by
  have hgood : GoodRec θ [] (deduplicateItems θ items) := by
    rw [deduplicateItems]
    exact dedupGo_goodRec θ (sortByEngagementDesc items) [] trivial
  have hsorted : (deduplicateItems θ items).Pairwise engLE := by
    obtain ⟨s, hs, he⟩ := dedupGo_sublist θ (sortByEngagementDesc items) [] []
    rw [deduplicateItems, he]
    simpa using List.Pairwise.sublist hs (sortByEngagementDesc_pairwise items)
  conv_lhs => rw [deduplicateItems]
  rw [sortByEngagementDesc_eq_self _ hsorted]
  exact dedupGo_of_goodRec θ (deduplicateItems θ items) [] hgood
